import Mathlib

/-!
Verification development for the agent-ledger service (`src/app.py`).

The Python application is shallowly embedded: SQLite tables become
association lists / lists held in a `ServerState`, the HTTP request
becomes an explicit `EntryRequest` record, and the wall clock readings
(`datetime.now(timezone.utc)`, `utc_day_str()`, `utc_now_iso()`) are
lifted to explicit parameters bundled in `Clock`.  SQLite `BEGIN
IMMEDIATE` transactions serialize writers, so a transaction is embedded
as an atomic state-to-state function; an exception raised inside the
transaction (modelled by `StoreFailure`) discards the uncommitted writes,
exactly as `ROLLBACK` does.
-/

namespace AgentLedger

/-- A quota-counter table (`agent_daily_counts` / `ip_daily_counts`):
rows keyed by `(scope key, day)` holding an integer count.  An absent
row is read as count 0, mirroring `used = int(row["count"]) if row else 0`. -/
abbrev Counters := List ((String × String) × Int)

/-- Read the count stored for `(key, day)`, 0 when the row is absent. -/
def getCount (t : Counters) (key day : String) : Int :=
  match t with
  | [] => 0
  | e :: rest => if e.1 = (key, day) then e.2 else getCount rest key day

/-- Store count `v` for `(key, day)` (the `UPDATE`-or-`INSERT` step of
`_enforce_daily_limit`). -/
def setCount (t : Counters) (key day : String) (v : Int) : Counters :=
  match t with
  | [] => [((key, day), v)]
  | e :: rest =>
    if e.1 = (key, day) then ((key, day), v) :: rest
    else e :: setCount rest key day v

/-- The tuple `(ok, remaining, used_after)` returned by
`_enforce_daily_limit`. -/
structure LimitResult where
  ok : Bool
  remaining : Int
  usedAfter : Int
deriving DecidableEq, Repr

/-- A point inside the `BEGIN IMMEDIATE` transaction of
`_enforce_daily_limit` at which the underlying store raises. -/
inductive StoreFailure
  | atBegin
  | atSelect
  | atWrite
  | atCommit
deriving DecidableEq, Repr

/-- `_enforce_daily_limit(table, key_col, key_value, limit)` with an
explicit failure-injection point.  The happy path reads the count for
`(key, day)`, rejects when `used >= limit` (committing nothing), and
otherwise writes `used + 1` and commits.  Any raised exception lands in
the `except` clause, which rolls the transaction back (the uncommitted
write is discarded, so the counter table is returned unchanged) and
returns `(False, 0, limit)`. -/
def enforceDailyLimitFS (fail : Option StoreFailure) (t : Counters)
    (key day : String) (limit : Int) : LimitResult × Counters :=
  if fail = some .atBegin ∨ fail = some .atSelect then
    (⟨false, 0, limit⟩, t)
  else
    let used := getCount t key day
    if used ≥ limit then
      if fail = some .atCommit then (⟨false, 0, limit⟩, t)
      else (⟨false, 0, used⟩, t)
    else
      if fail = some .atWrite ∨ fail = some .atCommit then
        (⟨false, 0, limit⟩, t)
      else
        (⟨true, max 0 (limit - (used + 1)), used + 1⟩,
          setCount t key day (used + 1))

/-- `_enforce_daily_limit` on a store that completes normally. -/
def enforceDailyLimit (t : Counters) (key day : String) (limit : Int) :
    LimitResult × Counters :=
  enforceDailyLimitFS none t key day limit

theorem getCount_setCount_self (t : Counters) (key day : String) (v : Int) :
    getCount (setCount t key day v) key day = v := by
  induction t with
  | nil => simp [setCount, getCount]
  | cons e rest ih =>
    by_cases h : e.1 = (key, day)
    · simp [setCount, getCount, h]
    · simp [setCount, getCount, h, ih]

theorem getCount_setCount_ne (t : Counters) (key day key2 day2 : String)
    (v : Int) (h : (key2, day2) ≠ (key, day)) :
    getCount (setCount t key day v) key2 day2 = getCount t key2 day2 := by
  have hkd : ¬((key, day) = (key2, day2)) := fun hc => h hc.symm
  induction t with
  | nil => simp only [setCount, getCount, hkd, if_false]
  | cons e rest ih =>
    by_cases he : e.1 = (key, day)
    · have hne : ¬(e.1 = (key2, day2)) := by rw [he]; exact hkd
      simp only [setCount, he, if_true, getCount, hkd, hne, if_false]
    · simp only [setCount, he, if_false, getCount]
      by_cases he2 : e.1 = (key2, day2)
      · simp only [he2, if_true]
      · simp only [he2, if_false, ih]

/-! ### Time helpers -/

/-- `seconds_until_next_utc_midnight` works from `datetime.now(timezone.utc)`;
we model that reading as a rational number of seconds since the epoch.
`tomorrow = (now + timedelta(days=1)).date()` followed by
`datetime.combine(tomorrow, datetime.min.time())` is the UTC midnight that
starts the next calendar day: `86400 * (⌊now / 86400⌋ + 1)`. -/
def nextUtcMidnight (now : ℚ) : ℚ :=
  86400 * ((Rat.floor (now / 86400) : ℤ) + 1)

/-- `seconds_until_next_utc_midnight()`: `int(...)` truncates the positive
number of remaining seconds toward zero, i.e. takes its floor. -/
def secondsUntilNextUtcMidnight (now : ℚ) : ℤ :=
  Rat.floor (nextUtcMidnight now - now)

/-! ### Misc helpers -/

/-- `clamp_int(x, lo, hi, default)`.  The argument is the result of
attempting `int(x)` on the query parameter: `none` when the conversion
raised (non-numeric input), in which case the default is returned. -/
def clampInt (x : Option Int) (lo hi dflt : Int) : Int :=
  match x with
  | some v => max lo (min hi v)
  | none => dflt

/-- `is_admin_write(req)`: an empty configured `WRITE_KEY` disables the
admin path entirely (`if not WRITE_KEY: return False`); otherwise the
`X-Write-Key` header (empty string when absent) must equal it. -/
def isAdminWrite (writeKey : String) (xWriteKeyHeader : String) : Bool :=
  if writeKey = "" then false
  else xWriteKeyHeader = writeKey

/-- Python `str.strip()` on the character list: drop leading and trailing
whitespace. -/
def stripList (l : List Char) : List Char :=
  ((l.dropWhile Char.isWhitespace).reverse.dropWhile Char.isWhitespace).reverse

/-- Python `str.strip()`. -/
def pyStrip (s : String) : String :=
  String.mk (stripList s.data)

/-- `get_client_ip(req)`: first entry of `X-Forwarded-For` when that
header is non-empty, else the stripped peer address, else `"unknown"`. -/
def getClientIp (xff remoteAddr : String) : String :=
  if xff ≠ "" then pyStrip (((xff.splitOn ",").headD ""))
  else if pyStrip remoteAddr ≠ "" then pyStrip remoteAddr
  else "unknown"

/-- `USERNAME_RE = ^[a-zA-Z0-9_]{3,32}$` applied to the (already
stripped) username. -/
def usernameValid (s : String) : Bool :=
  3 ≤ s.length && s.length ≤ 32 &&
    s.data.all (fun c => c.isAlphanum || c = '_')

/-! ### Data model -/

/-- A row of the `agents` table. -/
structure Agent where
  username : String
  agentKey : String
  createdAt : String
deriving DecidableEq, Repr

/-- A row of the `ledger` table (the `id` rowid is the position in the
list, which grows by appending). -/
structure LedgerRow where
  timestamp : String
  agentId : String
  domain : String
  object : String
  claim : String
  context : Option String
  confidence : ℚ
  signalClass : String
deriving DecidableEq, Repr

/-- The durable store: the four SQLite tables. -/
structure ServerState where
  agents : List Agent
  ledger : List LedgerRow
  keyCounts : Counters
  ipCounts : Counters
deriving DecidableEq, Repr

/-- The JSON body of a `POST /entry` request.  For the four required
fields the outer `Option` is key presence (`field not in data`) and the
inner `Option` distinguishes a JSON `null` from a string, since
`data.get(f) or ""` maps both absence and `null` to `""` while the
presence check sees them differently.  `confidence` holds the result of
`float(confidence_raw)`: `none` inside when the conversion raises.
`context` uses a single `Option` because `data.get("context")` returns
`None` for both an absent key and a `null` value. -/
structure Payload where
  agentId : Option String := none
  domain : Option (Option String) := none
  object : Option (Option String) := none
  claim : Option (Option String) := none
  confidence : Option (Option ℚ) := none
  context : Option String := none
deriving DecidableEq, Repr

/-- `(data.get(field) or "")`. -/
def orEmpty : Option (Option String) → String
  | some (some s) => s
  | _ => ""

/-- An inbound `POST /entry` request: headers default to `""` when
absent, `body = none` models a missing or falsy (`if not data`) JSON
body. -/
structure EntryRequest where
  xWriteKey : String := ""
  xAgentKey : String := ""
  xForwardedFor : String := ""
  remoteAddr : String := ""
  body : Option Payload := none
deriving Repr

/-- The configuration read once at startup from the environment. -/
structure Config where
  writeKey : String := ""
  maxClaimChars : Nat := 240
  maxContextChars : Nat := 2000
  dailyLimitPerKey : Int := 10
  dailyLimitPerIp : Int := 200
deriving Repr

/-- The wall-clock readings taken during one request, lifted to
parameters: `datetime.now(timezone.utc)` as seconds since the epoch,
`utc_day_str()`, and `utc_now_iso()`. -/
structure Clock where
  now : ℚ
  day : String
  nowIso : String
deriving Repr

/-- `MAX_AGENT_ID_CHARS`. -/
def maxAgentIdChars : Nat := 64

/-- `MAX_DOMAIN_CHARS`. -/
def maxDomainChars : Nat := 128

/-- `MAX_OBJECT_CHARS`. -/
def maxObjectChars : Nat := 256

/-! ### Identity registry -/

/-- `agent_key_to_username(agent_key)`: `None` for a falsy key, else a
unique-key lookup in `agents`. -/
def agentKeyToUsername (agents : List Agent) (agentKey : String) :
    Option String :=
  if agentKey = "" then none
  else (agents.find? (fun a => a.agentKey = agentKey)).map (·.username)

/-- Result of `POST /register`. -/
inductive RegisterResponse
  | badRequest (msg : String)
  | conflict
  | ok (username agentKey : String)
deriving DecidableEq, Repr

/-- `register_agent()`: strip the supplied username, reject a missing or
invalid one, then `INSERT` the new row; the `UNIQUE` constraints on
`username` and `agent_key` raise `IntegrityError` (409, nothing
inserted) when either value already exists.  `freshKey` is the
`secrets.token_urlsafe(24)` value, lifted to a parameter. -/
def registerAgent (st : ServerState) (usernameRaw freshKey nowIso : String) :
    RegisterResponse × ServerState :=
  let username := pyStrip usernameRaw
  if username = "" then (.badRequest "missing username", st)
  else if ¬ usernameValid username then (.badRequest "invalid username", st)
  else if st.agents.any (fun a => a.username = username ∨ a.agentKey = freshKey) then
    (.conflict, st)
  else
    (.ok username freshKey,
      { st with agents := st.agents ++ [⟨username, freshKey, nowIso⟩] })

/-! ### Write admission (`POST /entry`) -/

/-- Outcome of a request through the entry pipeline.  `rateLimited`
carries the `Retry-After` value that `make_429` computes from
`seconds_until_next_utc_midnight()`. -/
inductive EntryResponse
  | badRequest (msg : String)
  | unauthorized
  | rateLimited (scope : String) (retryAfter : ℤ)
  | ok (remainingTodayKey : Option Int)
deriving DecidableEq, Repr

/-- The `float(confidence_raw)` conversion (`none` inside the option
when it raised → 400 "must be a number") followed by the
`0 <= confidence <= 1` range test of `write_entry`. -/
def confidenceCheck : Option (Option ℚ) → Option String
  | some (some q) =>
    if 0 ≤ q ∧ q ≤ 1 then none else some "confidence out of range"
  | _ => some "confidence must be a number"

/-- The field-validation block of `write_entry` (presence loop, trim and
non-emptiness, length caps, `float` conversion and `0 <= confidence <= 1`),
returning the first error encountered, in source order. -/
def validateFields (cfg : Config) (username : String) (data : Payload) :
    Option String :=
  if data.domain = none then some "missing domain"
  else if data.object = none then some "missing object"
  else if data.claim = none then some "missing claim"
  else if data.confidence = none then some "missing confidence"
  else
    let domain := pyStrip (orEmpty data.domain)
    let obj := pyStrip (orEmpty data.object)
    let claim := orEmpty data.claim
    if domain = "" ∨ obj = "" ∨ claim = "" then
      some "domain, object and claim must be non-empty"
    else if username.length > maxAgentIdChars then some "agent_id too long"
    else if domain.length > maxDomainChars then some "domain too long"
    else if obj.length > maxObjectChars then some "object too long"
    else if claim.length > cfg.maxClaimChars then some "claim too long"
    else if (data.context.map (fun c => decide (c.length > cfg.maxContextChars))).getD false then
      some "context too long"
    else confidenceCheck data.confidence

/-- The parsed confidence at the point of insertion (validation has
already guaranteed `some (some q)`). -/
def confidenceVal : Option (Option ℚ) → ℚ
  | some (some q) => q
  | _ => 0

/-- The tail of `write_entry` shared by the admin and credential paths:
validate the fields and, on success, append the row to the ledger.
`remainingK = none` on the admin path (`agent_key = None`), in which
case the response omits the quota snapshot. -/
def finishWrite (cfg : Config) (clk : Clock) (username : String)
    (remainingK : Option Int) (data : Payload) (st : ServerState) :
    EntryResponse × ServerState :=
  match validateFields cfg username data with
  | some msg => (.badRequest msg, st)
  | none =>
    let row : LedgerRow :=
      { timestamp := clk.nowIso
        agentId := username
        domain := pyStrip (orEmpty data.domain)
        object := pyStrip (orEmpty data.object)
        claim := orEmpty data.claim
        context := data.context
        confidence := confidenceVal data.confidence
        signalClass := "accepted" }
    (.ok remainingK, { st with ledger := st.ledger ++ [row] })

/-- `write_entry()` (after the global per-IP check): falsy body → 400;
admin override → identity from the body (`data.get("agent_id") or
"admin"`), per-key quota skipped; otherwise resolve `X-Agent-Key`
(absent/unknown → 401) and charge the per-key daily limit (reject →
429 with the retry hint); then validate and append. -/
def writeEntry (cfg : Config) (clk : Clock) (req : EntryRequest)
    (st : ServerState) : EntryResponse × ServerState :=
  match req.body with
  | none => (.badRequest "no data", st)
  | some data =>
    if isAdminWrite cfg.writeKey req.xWriteKey then
      let username :=
        match data.agentId with
        | some s => if s = "" then "admin" else s
        | none => "admin"
      finishWrite cfg clk username none data st
    else
      match agentKeyToUsername st.agents req.xAgentKey with
      | none => (.unauthorized, st)
      | some username =>
        let r := enforceDailyLimit st.keyCounts req.xAgentKey clk.day
          cfg.dailyLimitPerKey
        let st1 := { st with keyCounts := r.2 }
        if r.1.ok then
          finishWrite cfg clk username (some r.1.remaining) data st1
        else
          (.rateLimited "agent key writes"
            (secondsUntilNextUtcMidnight clk.now), st1)

/-- One `POST /entry` request end to end: the `before_request` global
per-IP limit (`global_ip_rate_limit`) followed by `write_entry`. -/
def handleEntry (cfg : Config) (clk : Clock) (req : EntryRequest)
    (st : ServerState) : EntryResponse × ServerState :=
  let ip := getClientIp req.xForwardedFor req.remoteAddr
  let r := enforceDailyLimit st.ipCounts ip clk.day cfg.dailyLimitPerIp
  let st1 := { st with ipCounts := r.2 }
  if r.1.ok then writeEntry cfg clk req st1
  else (.rateLimited "ip" (secondsUntilNextUtcMidnight clk.now), st1)

/-! ### Read path (`GET /entries`) -/

/-- SQLite's BINARY collation on `TEXT`: bytewise (here, codepoint-wise)
lexicographic comparison of the stored timestamps. -/
def textLt : List Char → List Char → Prop
  | [], [] => False
  | [], _ :: _ => True
  | _ :: _, [] => False
  | a :: as, b :: bs => a < b ∨ (a = b ∧ textLt as bs)

instance : ∀ a b, Decidable (textLt a b)
  | [], [] => .isFalse (by simp [textLt])
  | [], _ :: _ => .isTrue (by simp [textLt])
  | _ :: _, [] => .isFalse (by simp [textLt])
  | a :: as, b :: bs =>
    have : Decidable (textLt as bs) := instDecidableTextLt as bs
    inferInstanceAs (Decidable (_ ∨ _))

/-- `a` is listed no later than `b` under
`ORDER BY timestamp DESC`: strictly later timestamp first, and rows with
equal timestamps delivered in descending rowid order (the reverse scan
of `idx_ledger_timestamp`), i.e. most-recently-inserted first. -/
def entryBefore (a b : ℕ × LedgerRow) : Prop :=
  textLt b.2.timestamp.data a.2.timestamp.data ∨
    (a.2.timestamp = b.2.timestamp ∧ b.1 ≤ a.1)

instance (a b : ℕ × LedgerRow) : Decidable (entryBefore a b) := by
  unfold entryBefore; infer_instance

/-- Insert one rowid-tagged row into a list already ordered by
`entryBefore`. -/
def insertByTs (x : ℕ × LedgerRow) : List (ℕ × LedgerRow) → List (ℕ × LedgerRow)
  | [] => [x]
  | y :: ys => if entryBefore x y then x :: y :: ys else y :: insertByTs x ys

/-- The ordered result set of `SELECT ... ORDER BY timestamp DESC`
over rowid-tagged ledger rows. -/
def sortByTsDesc : List (ℕ × LedgerRow) → List (ℕ × LedgerRow)
  | [] => []
  | x :: xs => insertByTs x (sortByTsDesc xs)

/-- `read_entries()`: clamp the `limit` query parameter into `[1, 500]`
with default 100, then return the first `limit` rows ordered newest
timestamp first (ties by descending rowid, i.e. insertion order with the
most recent first). -/
def readEntries (ledger : List LedgerRow) (limitRaw : Option Int) :
    List LedgerRow :=
  let lim := clampInt limitRaw 1 500 100
  ((sortByTsDesc ledger.enum).take lim.toNat).map (·.2)

/-! ### Helper lemmas on the quota ledger -/

theorem enforceDailyLimit_of_lt {t : Counters} {key day : String} {limit : Int}
    (h : getCount t key day < limit) :
    enforceDailyLimit t key day limit =
      (⟨true, max 0 (limit - (getCount t key day + 1)),
        getCount t key day + 1⟩,
       setCount t key day (getCount t key day + 1)) := by
  unfold enforceDailyLimit enforceDailyLimitFS
  rw [if_neg (by simp)]
  rw [if_neg (not_le.mpr h), if_neg (by simp)]

theorem enforceDailyLimit_of_ge {t : Counters} {key day : String} {limit : Int}
    (h : limit ≤ getCount t key day) :
    enforceDailyLimit t key day limit =
      (⟨false, 0, getCount t key day⟩, t) := by
  unfold enforceDailyLimit enforceDailyLimitFS
  rw [if_neg (by simp)]
  rw [if_pos h, if_neg (by simp)]

/-- `K` back-to-back calls of `_enforce_daily_limit` for the same
`(scope, day)`; `BEGIN IMMEDIATE` serializes concurrent writers of the
counter tables, so any interleaving of `K` concurrent attempts executes
as some such sequence.  Returns how many were allowed and the final
counters. -/
def runChecks (key day : String) (limit : Int) :
    Nat → Counters → Nat × Counters
  | 0, t => (0, t)
  | k + 1, t =>
    let r := enforceDailyLimit t key day limit
    let rest := runChecks key day limit k r.2
    ((if r.1.ok then 1 else 0) + rest.1, rest.2)

theorem runChecks_allowed_count (key day : String) (limit : Int) :
    ∀ (k : Nat) (t : Counters),
      (runChecks key day limit k t).1 =
        min k (limit - getCount t key day).toNat := by
  intro k
  induction k with
  | zero => intro t; simp [runChecks]
  | succ k ih =>
    intro t
    by_cases h : getCount t key day < limit
    · rw [runChecks]
      simp only [enforceDailyLimit_of_lt h, getCount_setCount_self, ih]
      have h1 : (limit - getCount t key day).toNat =
          (limit - (getCount t key day + 1)).toNat + 1 := by omega
      rw [h1]
      simp [Nat.succ_min_succ, Nat.add_comm]
    · rw [runChecks]
      simp only [enforceDailyLimit_of_ge (not_lt.mp h), ih]
      have h1 : (limit - getCount t key day).toNat = 0 := by omega
      simp [h1]

/-! ## Claims -/

/-- Claim C1: `_enforce_daily_limit` reads the current count for
`(scope_id, day)` with an absent row read as 0; when that count is
strictly below the limit it persists `count + 1` and returns
`allowed = true` with `used_after = count + 1`, and otherwise it leaves
the stored counters unchanged and returns `allowed = false` with
`remaining = 0`.  The operation never touches any other day's row, so a
scope whose row for a new day is still absent (count 0) is allowed again
on the first check of that day with no explicit reset, whenever the
limit is positive. -/
theorem c1_check_and_increment_semantics (t : Counters) (key day : String)
    (limit : Int) :
    (getCount t key day < limit →
      (enforceDailyLimit t key day limit).1 =
        ⟨true, max 0 (limit - (getCount t key day + 1)),
          getCount t key day + 1⟩ ∧
      getCount (enforceDailyLimit t key day limit).2 key day =
        getCount t key day + 1) ∧
    (limit ≤ getCount t key day →
      (enforceDailyLimit t key day limit).1.ok = false ∧
      (enforceDailyLimit t key day limit).1.remaining = 0 ∧
      (enforceDailyLimit t key day limit).2 = t) ∧
    (∀ day2, day2 ≠ day →
      getCount (enforceDailyLimit t key day limit).2 key day2 =
        getCount t key day2) ∧
    (getCount t key day = 0 → 0 < limit →
      (enforceDailyLimit t key day limit).1.ok = true) := by
  refine ⟨fun h => ?_, fun h => ?_, fun day2 hd => ?_, fun h0 hl => ?_⟩
  · rw [enforceDailyLimit_of_lt h]
    exact ⟨rfl, getCount_setCount_self ..⟩
  · rw [enforceDailyLimit_of_ge h]
    exact ⟨rfl, rfl, rfl⟩
  · by_cases h : limit ≤ getCount t key day
    · rw [enforceDailyLimit_of_ge h]
    · rw [enforceDailyLimit_of_lt (not_le.mp h)]
      exact getCount_setCount_ne _ _ _ _ _ _ (by simp [hd])
  · rw [enforceDailyLimit_of_lt (by rw [h0]; exact hl)]

/-- Witness for C1 at a concrete input: a fresh counter table with
limit 3 allows the first check and stores count 1. -/
theorem c1_check_and_increment_semantics_witness :
    (enforceDailyLimit [] "agent01" "2026-01-01" 3).1 =
      ⟨true, 2, 1⟩ ∧
    getCount (enforceDailyLimit [] "agent01" "2026-01-01" 3).2
      "agent01" "2026-01-01" = 1 := by
  have h := (c1_check_and_increment_semantics [] "agent01" "2026-01-01" 3).1
    (by decide)
  exact ⟨by rw [h.1]; decide, h.2⟩

/-- Claim C2: for a fresh scope with limit `L`, `K > L` increment
attempts against the same `(scope_id, day)` yield exactly `L`
`allowed = true` outcomes and `K − L` `allowed = false` ones, whatever
the arrival order — the `BEGIN IMMEDIATE` transaction serializes the
attempts, so every interleaving executes as the sequence `runChecks`
(and all attempts being the same operation, every serialization order
gives the same counts).  In particular two callers racing against a
counter at `limit − 1` do not both succeed: only one of the two is
allowed. -/
theorem c2_atomicity_under_contention (t : Counters) (key day : String)
    (L K : Nat) :
    (getCount t key day = 0 → L < K →
      (runChecks key day (L : Int) K t).1 = L ∧
      K - (runChecks key day (L : Int) K t).1 = K - L) ∧
    (getCount t key day = (L : Int) - 1 → 1 ≤ L →
      (runChecks key day (L : Int) 2 t).1 = 1) := by
  constructor
  · intro h0 hKL
    have h := runChecks_allowed_count key day (L : Int) K t
    rw [h0] at h
    have h2 : ((L : Int) - 0).toNat = L := by omega
    rw [h2] at h
    rw [h, min_eq_right (Nat.le_of_lt hKL)]
    exact ⟨rfl, rfl⟩
  · intro h1 hL
    have h := runChecks_allowed_count key day (L : Int) 2 t
    rw [h1] at h
    have h2 : ((L : Int) - ((L : Int) - 1)).toNat = 1 := by omega
    rw [h2] at h
    simpa using h

/-- Witness for C2: starting from an empty table with limit 2, five
attempts allow exactly 2 and reject 3; and from a counter sitting at
`2 − 1 = 1`, two racing attempts allow exactly one. -/
theorem c2_atomicity_under_contention_witness :
    (runChecks "agent01" "2026-01-01" ((2 : Nat) : Int) 5 []).1 = 2 ∧
    5 - (runChecks "agent01" "2026-01-01" ((2 : Nat) : Int) 5 []).1 = 3 ∧
    (runChecks "agent01" "2026-01-01" ((2 : Nat) : Int) 2
      [(("agent01", "2026-01-01"), 1)]).1 = 1 := by
  have h := (c2_atomicity_under_contention [] "agent01" "2026-01-01" 2 5).1
    (by decide) (by decide)
  have h2 := (c2_atomicity_under_contention
    [(("agent01", "2026-01-01"), 1)] "agent01" "2026-01-01" 2 5).2
    (by decide) (by decide)
  exact ⟨h.1, by rw [h.1], h2⟩

/-- Claim C3: whenever the underlying store raises at any point inside
`_enforce_daily_limit` — at `BEGIN`, at the `SELECT`, at the
`UPDATE`/`INSERT`, or at `COMMIT` — the `except` clause returns
`allowed = false` (never `allowed = true`), and the counter table is
exactly what it was before the call: the uncommitted write is rolled
back, so a spurious failure never grants extra capacity on a later
retry. -/
theorem c3_fail_closed_and_rollback (fail : StoreFailure) (t : Counters)
    (key day : String) (limit : Int) :
    (enforceDailyLimitFS (some fail) t key day limit).1.ok = false ∧
    (enforceDailyLimitFS (some fail) t key day limit).2 = t := by
  cases fail <;>
    (unfold enforceDailyLimitFS; split_ifs <;> simp_all <;> split_ifs <;> simp)

theorem ratFloor_eq_intFloor (q : ℚ) : Rat.floor q = ⌊q⌋ :=
  (Rat.floor_def' q).trans Rat.floor_def.symm

theorem finishWrite_not_rateLimited (cfg : Config) (clk : Clock)
    (username : String) (remainingK : Option Int) (data : Payload)
    (st : ServerState) (scope : String) (ra : ℤ) :
    (finishWrite cfg clk username remainingK data st).1 ≠
      .rateLimited scope ra := by
  unfold finishWrite
  split <;> simp

/-- Claim C7: every 429 produced by the entry pipeline carries a
`Retry-After` equal to `seconds_until_next_utc_midnight()`, and that
value is the whole number of seconds (the floor of the exact remaining
time) from the current moment to the next UTC midnight —
`nextUtcMidnight now` being genuinely the next midnight: a whole
multiple of 86400 seconds, strictly in the future, and at most one day
away. -/
theorem c7_retry_after_is_seconds_to_midnight (cfg : Config) (clk : Clock)
    (req : EntryRequest) (st : ServerState) (now : ℚ) :
    (∀ scope ra, (handleEntry cfg clk req st).1 = .rateLimited scope ra →
      ra = secondsUntilNextUtcMidnight clk.now) ∧
    ((secondsUntilNextUtcMidnight now : ℚ) ≤ nextUtcMidnight now - now ∧
      nextUtcMidnight now - now < (secondsUntilNextUtcMidnight now : ℚ) + 1 ∧
      (∃ k : ℤ, nextUtcMidnight now = 86400 * (k : ℚ)) ∧
      now < nextUtcMidnight now ∧ nextUtcMidnight now ≤ now + 86400) := by
  constructor
  · intro scope ra h
    unfold handleEntry at h
    simp only at h
    split at h
    · unfold writeEntry at h
      split at h
      · simp at h
      · split at h
        · simp only at h
          exact absurd h (finishWrite_not_rateLimited _ _ _ _ _ _ _ _)
        · split at h
          · simp at h
          · simp only at h
            split at h
            · exact absurd h (finishWrite_not_rateLimited _ _ _ _ _ _ _ _)
            · simp only [Prod.fst] at h
              cases h
              rfl
    · simp only [Prod.fst] at h
      cases h
      rfl
  · have hfl : (secondsUntilNextUtcMidnight now : ℚ) =
        (⌊nextUtcMidnight now - now⌋ : ℚ) := by
      rw [secondsUntilNextUtcMidnight, ratFloor_eq_intFloor]
    have hle : (secondsUntilNextUtcMidnight now : ℚ) ≤
        nextUtcMidnight now - now := by
      rw [hfl]; exact Int.floor_le _
    have hlt : nextUtcMidnight now - now <
        (secondsUntilNextUtcMidnight now : ℚ) + 1 := by
      rw [hfl]
      exact_mod_cast Int.lt_floor_add_one (nextUtcMidnight now - now)
    refine ⟨hle, hlt, ⟨Rat.floor (now / 86400) + 1, by
      rw [nextUtcMidnight]; push_cast; ring⟩, ?_, ?_⟩
    · have h1 : now / 86400 < ((Rat.floor (now / 86400) : ℤ) : ℚ) + 1 := by
        rw [ratFloor_eq_intFloor]
        exact_mod_cast Int.lt_floor_add_one (now / 86400)
      have h2 : now < 86400 * (((Rat.floor (now / 86400) : ℤ) : ℚ) + 1) := by
        have := mul_lt_mul_of_pos_left h1 (by norm_num : (0:ℚ) < 86400)
        calc now = 86400 * (now / 86400) := by ring
          _ < _ := this
      rw [nextUtcMidnight]
      exact_mod_cast h2
    · have h1 : ((Rat.floor (now / 86400) : ℤ) : ℚ) ≤ now / 86400 := by
        rw [ratFloor_eq_intFloor]
        exact_mod_cast Int.floor_le (now / 86400)
      have h2 : 86400 * ((Rat.floor (now / 86400) : ℤ) : ℚ) ≤ now := by
        have := mul_le_mul_of_nonneg_left h1 (by norm_num : (0:ℚ) ≤ 86400)
        calc 86400 * ((Rat.floor (now / 86400) : ℤ) : ℚ) ≤
            86400 * (now / 86400) := this
          _ = now := by ring
      rw [nextUtcMidnight]
      linarith

/-- Witness for C7: with the per-IP limit set to 0 at time `now = 0`,
the pipeline rejects with a 429 whose retry hint is
`seconds_until_next_utc_midnight 0`, which lies within one second below
the exact remaining time to the next midnight. -/
theorem c7_retry_after_is_seconds_to_midnight_witness :
    ((handleEntry { dailyLimitPerIp := 0 } ⟨0, "2026-01-01", "iso"⟩
      { remoteAddr := "9.9.9.9" } ⟨[], [], [], []⟩).1 =
        .rateLimited "ip" (secondsUntilNextUtcMidnight 0)) ∧
    (secondsUntilNextUtcMidnight 0 : ℚ) ≤ nextUtcMidnight 0 - 0 ∧
    nextUtcMidnight 0 - 0 < (secondsUntilNextUtcMidnight 0 : ℚ) + 1 := by
  have h := c7_retry_after_is_seconds_to_midnight { dailyLimitPerIp := 0 }
    ⟨0, "2026-01-01", "iso"⟩ { remoteAddr := "9.9.9.9" } ⟨[], [], [], []⟩ 0
  have hr : (handleEntry { dailyLimitPerIp := 0 } ⟨0, "2026-01-01", "iso"⟩
      { remoteAddr := "9.9.9.9" } ⟨[], [], [], []⟩).1 =
        .rateLimited "ip" (secondsUntilNextUtcMidnight 0) := by
    have := h.1 "ip"
    unfold handleEntry
    simp only
    split
    · next hok =>
      exfalso
      revert hok
      decide
    · rfl
  exact ⟨hr, h.2.1, h.2.2.1⟩

theorem finishWrite_keyCounts (cfg : Config) (clk : Clock)
    (username : String) (remainingK : Option Int) (data : Payload)
    (st : ServerState) :
    (finishWrite cfg clk username remainingK data st).2.keyCounts =
      st.keyCounts := by
  unfold finishWrite; split <;> rfl

/-- Claim C10: with no admin override secret configured (`WRITE_KEY`
empty), `is_admin_write` is false for every request — in particular an
empty or absent `X-Write-Key` header does not match the empty
configured secret — and an entry request is handled through the normal
credential-resolution and per-key-quota path: an unknown credential is
rejected 401, and a known credential with quota available is charged on
the per-key counter. -/
theorem c10_empty_write_key_never_admin (hdr : String) (cfg : Config)
    (clk : Clock) (req : EntryRequest) (st : ServerState) :
    isAdminWrite "" hdr = false ∧
    (cfg.writeKey = "" →
      getCount st.ipCounts (getClientIp req.xForwardedFor req.remoteAddr)
        clk.day < cfg.dailyLimitPerIp →
      req.body.isSome →
      (agentKeyToUsername st.agents req.xAgentKey = none →
        (handleEntry cfg clk req st).1 = .unauthorized ∧
        (handleEntry cfg clk req st).2.keyCounts = st.keyCounts) ∧
      (∀ u, agentKeyToUsername st.agents req.xAgentKey = some u →
        getCount st.keyCounts req.xAgentKey clk.day < cfg.dailyLimitPerKey →
        getCount (handleEntry cfg clk req st).2.keyCounts req.xAgentKey
          clk.day =
          getCount st.keyCounts req.xAgentKey clk.day + 1)) := by
  refine ⟨by simp [isAdminWrite], fun hwk hip hbody => ?_⟩
  obtain ⟨data, hdata⟩ := Option.isSome_iff_exists.mp hbody
  have hadmin : isAdminWrite cfg.writeKey req.xWriteKey = false := by
    simp [isAdminWrite, hwk]
  constructor
  · intro hres
    unfold handleEntry
    simp only [enforceDailyLimit_of_lt hip]
    unfold writeEntry
    simp only [hdata, hadmin, Bool.false_eq_true, if_false, hres]
    exact ⟨rfl, rfl⟩
  · intro u hres hkey
    unfold handleEntry
    simp only [enforceDailyLimit_of_lt hip]
    unfold writeEntry
    simp only [hdata, hadmin, Bool.false_eq_true, if_false, hres]
    simp only [enforceDailyLimit_of_lt hkey, if_true]
    rw [finishWrite_keyCounts]
    exact getCount_setCount_self ..

/-- Witness for C10: empty `WRITE_KEY`, an empty `X-Write-Key` header
and an unknown agent key on a fresh store give 401 (not the admin
path), leaving the per-key counters untouched. -/
theorem c10_empty_write_key_never_admin_witness :
    isAdminWrite "" "" = false ∧
    (handleEntry {} ⟨0, "2026-01-01", "iso"⟩
      { remoteAddr := "9.9.9.9", body := some {} } ⟨[], [], [], []⟩).1 =
      .unauthorized := by
  have h := c10_empty_write_key_never_admin "" {} ⟨0, "2026-01-01", "iso"⟩
    { remoteAddr := "9.9.9.9", body := some {} } ⟨[], [], [], []⟩
  exact ⟨h.1, ((h.2 rfl (by decide) rfl).1 rfl).1⟩

theorem finishWrite_badRequest_state (cfg : Config) (clk : Clock)
    (username : String) (remainingK : Option Int) (data : Payload)
    (st : ServerState) (msg : String) :
    (finishWrite cfg clk username remainingK data st).1 = .badRequest msg →
    (finishWrite cfg clk username remainingK data st).2 = st := by
  unfold finishWrite
  split
  · intro _; rfl
  · intro h; exact absurd h (by simp)

theorem writeEntry_badRequest_state (cfg : Config) (clk : Clock)
    (req : EntryRequest) (st : ServerState) (msg : String) :
    (writeEntry cfg clk req st).1 = .badRequest msg →
    (writeEntry cfg clk req st).2.ledger = st.ledger ∧
    (writeEntry cfg clk req st).2.agents = st.agents := by
  unfold writeEntry
  cases hb : req.body with
  | none => intro _; exact ⟨rfl, rfl⟩
  | some data =>
    by_cases hadm : isAdminWrite cfg.writeKey req.xWriteKey = true
    · simp only [hadm, if_true]
      intro h
      rw [finishWrite_badRequest_state _ _ _ _ _ _ _ h]
      exact ⟨rfl, rfl⟩
    · simp only [hadm, if_false, Bool.false_eq_true]
      cases hres : agentKeyToUsername st.agents req.xAgentKey with
      | none => intro _; exact ⟨rfl, rfl⟩
      | some u =>
        simp only
        by_cases hk : (enforceDailyLimit st.keyCounts req.xAgentKey clk.day
            cfg.dailyLimitPerKey).1.ok = true
        · simp only [hk, if_true]
          intro h
          rw [finishWrite_badRequest_state _ _ _ _ _ _ _ h]
          exact ⟨rfl, rfl⟩
        · simp only [hk, if_false, Bool.false_eq_true]
          intro h
          exact absurd h (by simp)

/-- The one-agent store, request clock and credentialed request with a
missing `claim` field used as concrete test fixtures. -/
def stOneAgent : ServerState :=
  ⟨[⟨"agent01", "KEY1", "iso0"⟩], [], [], []⟩

/-- A fixed request clock: epoch instant, day `2026-01-01`. -/
def clk0 : Clock := ⟨0, "2026-01-01", "iso"⟩

/-- A credentialed write request whose body lacks the `claim` field. -/
def reqMissingClaim : EntryRequest :=
  { xAgentKey := "KEY1", remoteAddr := "9.9.9.9",
    body := some { domain := some (some "web"),
                   object := some (some "thing"),
                   confidence := some (some 1) } }

/-- Counterexample to claim C4 as stated: a write request with a valid
credential but a missing `claim` field terminates with a 400
`ValidationError`, yet both quota counter families have been mutated:
the per-origin counter and the per-credential counter each went from 0
to 1, because `global_ip_rate_limit` runs before `write_entry` and the
per-key quota is charged before field validation. -/
theorem c4_counterexample_400_mutates_counters :
    (handleEntry {} clk0 reqMissingClaim stOneAgent).1 =
      .badRequest "missing claim" ∧
    getCount stOneAgent.ipCounts "9.9.9.9" "2026-01-01" = 0 ∧
    getCount stOneAgent.keyCounts "KEY1" "2026-01-01" = 0 ∧
    getCount (handleEntry {} clk0 reqMissingClaim stOneAgent).2.ipCounts
      "9.9.9.9" "2026-01-01" = 1 ∧
    getCount (handleEntry {} clk0 reqMissingClaim stOneAgent).2.keyCounts
      "KEY1" "2026-01-01" = 1 := by
  decide

/-- Claim C4 as amended: a write request that terminates with a 400
`ValidationError` appends nothing to the ledger and leaves the identity
table unchanged; the quota counters, however, may already have been
incremented (the per-origin counter by the global pre-request check,
and the per-credential counter for a non-admin write that passed its
quota check before validation). -/
theorem c4_validation_400_preserves_ledger_and_identity (cfg : Config)
    (clk : Clock) (req : EntryRequest) (st : ServerState) (msg : String) :
    (handleEntry cfg clk req st).1 = .badRequest msg →
    (handleEntry cfg clk req st).2.ledger = st.ledger ∧
    (handleEntry cfg clk req st).2.agents = st.agents := by
  intro h
  unfold handleEntry at h ⊢
  simp only at h ⊢
  by_cases hok : (enforceDailyLimit st.ipCounts
      (getClientIp req.xForwardedFor req.remoteAddr) clk.day
      cfg.dailyLimitPerIp).1.ok = true
  · simp only [hok, if_true] at h ⊢
    exact writeEntry_badRequest_state _ _ _ _ _ h
  · simp only [hok, if_false, Bool.false_eq_true] at h
    exact absurd h (by simp)

/-- Witness for the amended C4 at the counterexample input: the 400
response left the ledger empty and the identity table as it was. -/
theorem c4_validation_400_preserves_ledger_and_identity_witness :
    (handleEntry {} clk0 reqMissingClaim stOneAgent).2.ledger =
      stOneAgent.ledger ∧
    (handleEntry {} clk0 reqMissingClaim stOneAgent).2.agents =
      stOneAgent.agents :=
  c4_validation_400_preserves_ledger_and_identity {} clk0 reqMissingClaim
    stOneAgent "missing claim" (by decide)

theorem confidenceCheck_eq_none_iff (conf : Option (Option ℚ)) :
    confidenceCheck conf = none ↔
      ∃ q, conf = some (some q) ∧ 0 ≤ q ∧ q ≤ 1 := by
  cases conf with
  | none => simp [confidenceCheck]
  | some c =>
    cases c with
    | none => simp [confidenceCheck]
    | some q =>
      simp only [confidenceCheck]
      split_ifs with hq
      · simpa using hq
      · simpa using hq

set_option maxHeartbeats 2000000 in
/-- Full characterization of the requests that survive the validation
block of `write_entry`. -/
theorem validateFields_eq_none_iff (cfg : Config) (u : String) (p : Payload) :
    validateFields cfg u p = none ↔
      p.domain ≠ none ∧ p.object ≠ none ∧ p.claim ≠ none ∧
      pyStrip (orEmpty p.domain) ≠ "" ∧ pyStrip (orEmpty p.object) ≠ "" ∧
      orEmpty p.claim ≠ "" ∧
      u.length ≤ maxAgentIdChars ∧
      (pyStrip (orEmpty p.domain)).length ≤ maxDomainChars ∧
      (pyStrip (orEmpty p.object)).length ≤ maxObjectChars ∧
      (orEmpty p.claim).length ≤ cfg.maxClaimChars ∧
      (∀ c, p.context = some c → c.length ≤ cfg.maxContextChars) ∧
      (∃ q, p.confidence = some (some q) ∧ 0 ≤ q ∧ q ≤ 1) := by
  obtain ⟨aid, dom, obj, clm, conf, ctx⟩ := p
  unfold validateFields
  simp only
  split_ifs with h1 h2 h3 h4 h5 h6 h7 h8 h9 h10
  · simp [h1]
  · simp [h2]
  · simp [h3]
  · simp [h4]
  · rcases h5 with h | h | h <;> simp [h]
  · simp [not_le.mpr h6]
  · simp [not_le.mpr h7]
  · simp [not_le.mpr h8]
  · simp [not_le.mpr h9]
  · cases ctx with
    | none => simp at h10
    | some c =>
      simp at h10
      simp [not_le.mpr h10]
  · rw [confidenceCheck_eq_none_iff]
    push_neg at h5
    have hctx : ∀ c, ctx = some c → c.length ≤ cfg.maxContextChars := by
      intro c hc
      subst hc
      simp at h10
      exact h10
    constructor
    · intro hq
      exact ⟨h1, h2, h3, h5.1, h5.2.1, h5.2.2, not_lt.mp h6, not_lt.mp h7,
        not_lt.mp h8, not_lt.mp h9, hctx, hq⟩
    · intro hr
      exact hr.2.2.2.2.2.2.2.2.2.2.2

/-- A `POST /entry` body with the given domain, object, claim,
confidence and context, all four required keys present. -/
def mkPayload (dom obj s : String) (conf : Option (Option ℚ))
    (ctx : Option String) : Payload :=
  { domain := some (some dom), object := some (some obj),
    claim := some (some s), confidence := conf, context := ctx }

/-- A credentialed write request whose claim is a single space. -/
def reqWhitespaceClaim : EntryRequest :=
  { xAgentKey := "KEY1", remoteAddr := "9.9.9.9",
    body := some (mkPayload "web" "thing" " " (some (some 1)) none) }

/-- Counterexample to claim C5 as stated: a write request whose `claim`
consists only of whitespace (a single space — non-empty before
trimming, empty after) is not rejected: the pipeline returns 200 and
appends the record, with the whitespace claim stored verbatim, because
`write_entry` strips `domain` and `object` but not `claim`. -/
theorem c5_counterexample_whitespace_claim_accepted :
    (" " : String) ≠ "" ∧ pyStrip " " = "" ∧
    (handleEntry {} clk0 reqWhitespaceClaim stOneAgent).1 = .ok (some 9) ∧
    ((handleEntry {} clk0 reqWhitespaceClaim stOneAgent).2.ledger.map
      (fun r => r.claim)) = [" "] := by
  decide

/-- Claim C5 as amended: `domain` and `object` must be non-empty after
trimming — a whitespace-only value for either is rejected with the 400
non-emptiness `ValidationError` — and `claim` must be non-empty exactly
as supplied: it is not trimmed, so a whitespace-only `claim` (within the
length cap) passes validation. -/
theorem c5_domain_object_trimmed_claim_untrimmed (cfg : Config)
    (u : String) (p : Payload) :
    (p.domain ≠ none → p.object ≠ none → p.claim ≠ none →
      p.confidence ≠ none →
      (pyStrip (orEmpty p.domain) = "" ∨ pyStrip (orEmpty p.object) = "" ∨
        orEmpty p.claim = "") →
      validateFields cfg u p =
        some "domain, object and claim must be non-empty") ∧
    (∀ s : String, s ≠ "" → s.length ≤ cfg.maxClaimChars →
      u.length ≤ maxAgentIdChars →
      validateFields cfg u (mkPayload "web" "thing" s (some (some 1)) none) =
        none) := by
  constructor
  · intro h1 h2 h3 h4 hemp
    unfold validateFields
    rw [if_neg h1, if_neg h2, if_neg h3, if_neg h4, if_pos hemp]
  · intro s hs hlen hu
    rw [validateFields_eq_none_iff]
    exact ⟨by simp [mkPayload], by simp [mkPayload], by simp [mkPayload],
      by simp only [mkPayload]; decide, by simp only [mkPayload]; decide,
      hs, hu, by simp only [mkPayload]; decide,
      by simp only [mkPayload]; decide, hlen,
      by simp [mkPayload], 1, rfl, by decide, by decide⟩

/-- Witness for the amended C5: a whitespace-only `domain` draws the
non-emptiness 400, while a whitespace-only `claim` (with valid other
fields) passes validation. -/
theorem c5_domain_object_trimmed_claim_untrimmed_witness :
    validateFields {} "agent01" (mkPayload " " "thing" "c" (some (some 1))
      none) = some "domain, object and claim must be non-empty" ∧
    validateFields {} "agent01" (mkPayload "web" "thing" " " (some (some 1))
      none) = none := by
  have h := c5_domain_object_trimmed_claim_untrimmed {} "agent01"
    (mkPayload " " "thing" "c" (some (some 1)) none)
  exact ⟨h.1 (by simp [mkPayload]) (by simp [mkPayload]) (by simp [mkPayload])
      (by simp [mkPayload]) (by decide),
    h.2 " " (by decide) (by decide) (by decide)⟩

/-- Claim C6: with every other field valid, `confidence` is accepted
exactly when it parsed as a number lying in the closed interval
`[0, 1]`, and — with a valid in-range confidence — the `claim` is
accepted exactly when its length is at most the configured maximum (so
exactly the maximum length is accepted and maximum-plus-one is
rejected); any violation yields a 400 `ValidationError`. -/
theorem c6_confidence_interval_and_claim_boundary (cfg : Config)
    (u dom obj s : String) (ctx : Option String)
    (conf : Option (Option ℚ)) :
    pyStrip dom ≠ "" → pyStrip obj ≠ "" → s ≠ "" →
    u.length ≤ maxAgentIdChars →
    (pyStrip dom).length ≤ maxDomainChars →
    (pyStrip obj).length ≤ maxObjectChars →
    (∀ c, ctx = some c → c.length ≤ cfg.maxContextChars) →
    (s.length ≤ cfg.maxClaimChars →
      (validateFields cfg u (mkPayload dom obj s conf ctx) = none ↔
        ∃ q, conf = some (some q) ∧ 0 ≤ q ∧ q ≤ 1)) ∧
    (∀ q, conf = some (some q) → 0 ≤ q → q ≤ 1 →
      (validateFields cfg u (mkPayload dom obj s conf ctx) = none ↔
        s.length ≤ cfg.maxClaimChars)) := by
  intro hd ho hs hu hdl hol hctx
  constructor
  · intro hlen
    rw [validateFields_eq_none_iff]
    constructor
    · intro hr
      exact hr.2.2.2.2.2.2.2.2.2.2.2
    · intro hq
      exact ⟨by simp [mkPayload], by simp [mkPayload], by simp [mkPayload],
        hd, ho, hs, hu, hdl, hol, hlen, hctx, hq⟩
  · intro q hq h0 h1
    rw [validateFields_eq_none_iff]
    constructor
    · intro hr
      exact hr.2.2.2.2.2.2.2.2.2.1
    · intro hlen
      exact ⟨by simp [mkPayload], by simp [mkPayload], by simp [mkPayload],
        hd, ho, hs, hu, hdl, hol, hlen, hctx, q, hq, h0, h1⟩

set_option maxRecDepth 100000 in
/-- Witness for C6 at the boundary inputs: `confidence = 0` and
`confidence = 1` accepted, `confidence = 2` and `confidence = -1`
rejected, a 240-character claim accepted and a 241-character claim
rejected (under the default 240-character cap). -/
theorem c6_confidence_interval_and_claim_boundary_witness :
    validateFields {} "agent01" (mkPayload "web" "thing" "c"
      (some (some 0)) none) = none ∧
    validateFields {} "agent01" (mkPayload "web" "thing" "c"
      (some (some 1)) none) = none ∧
    validateFields {} "agent01" (mkPayload "web" "thing" "c"
      (some (some 2)) none) ≠ none ∧
    validateFields {} "agent01" (mkPayload "web" "thing" "c"
      (some (some (-1))) none) ≠ none ∧
    validateFields {} "agent01" (mkPayload "web" "thing"
      (String.mk (List.replicate 240 'x')) (some (some 1)) none) = none ∧
    validateFields {} "agent01" (mkPayload "web" "thing"
      (String.mk (List.replicate 241 'x')) (some (some 1)) none) ≠ none := by
  have h := fun (conf : Option (Option ℚ)) =>
    c6_confidence_interval_and_claim_boundary {} "agent01" "web" "thing" "c"
      none conf (by decide) (by decide) (by decide) (by decide) (by decide)
      (by decide) (by simp)
  have h240 := fun (s : String) (hs : s ≠ "") =>
    c6_confidence_interval_and_claim_boundary {} "agent01" "web" "thing" s
      none (some (some 1)) (by decide) (by decide) hs (by decide) (by decide)
      (by decide) (by simp)
  refine ⟨?_, ?_, ?_, ?_, ?_, ?_⟩
  · exact ((h (some (some 0))).1 (by decide)).mpr ⟨0, rfl, by decide, by decide⟩
  · exact ((h (some (some 1))).1 (by decide)).mpr ⟨1, rfl, by decide, by decide⟩
  · intro hnone
    obtain ⟨q, hq, _, hq1⟩ := ((h (some (some 2))).1 (by decide)).mp hnone
    cases hq
    exact absurd hq1 (by decide)
  · intro hnone
    obtain ⟨q, hq, hq0, _⟩ := ((h (some (some (-1)))).1 (by decide)).mp hnone
    cases hq
    exact absurd hq0 (by decide)
  · exact ((h240 (String.mk (List.replicate 240 'x')) (by decide)).2 1 rfl
      (by decide) (by decide)).mpr (by decide)
  · intro hnone
    have := ((h240 (String.mk (List.replicate 241 'x')) (by decide)).2 1 rfl
      (by decide) (by decide)).mp hnone
    exact absurd this (by decide)

/-! ### Ordering lemmas for the read path -/

theorem textLt_trans : ∀ (a b c : List Char),
    textLt a b → textLt b c → textLt a c := by
  intro a
  induction a with
  | nil =>
    intro b c hab hbc
    cases b with
    | nil => exact absurd hab (by simp [textLt])
    | cons y ys =>
      cases c with
      | nil => exact absurd hbc (by simp [textLt])
      | cons z zs => simp [textLt]
  | cons x xs ih =>
    intro b c hab hbc
    cases b with
    | nil => exact absurd hab (by simp [textLt])
    | cons y ys =>
      cases c with
      | nil => exact absurd hbc (by simp [textLt])
      | cons z zs =>
        simp only [textLt] at hab hbc ⊢
        rcases hab with h1 | ⟨he1, h1⟩
        · rcases hbc with h2 | ⟨he2, h2⟩
          · exact Or.inl (lt_trans h1 h2)
          · exact Or.inl (he2 ▸ h1)
        · rcases hbc with h2 | ⟨he2, h2⟩
          · exact Or.inl (by rw [he1]; exact h2)
          · exact Or.inr ⟨he1.trans he2, ih ys zs h1 h2⟩

theorem textLt_total : ∀ (a b : List Char),
    textLt a b ∨ textLt b a ∨ a = b := by
  intro a
  induction a with
  | nil =>
    intro b
    cases b with
    | nil => exact Or.inr (Or.inr rfl)
    | cons y ys => exact Or.inl (by simp [textLt])
  | cons x xs ih =>
    intro b
    cases b with
    | nil => exact Or.inr (Or.inl (by simp [textLt]))
    | cons y ys =>
      rcases lt_trichotomy x y with h | h | h
      · exact Or.inl (Or.inl h)
      · rcases ih ys with h2 | h2 | h2
        · exact Or.inl (Or.inr ⟨h, h2⟩)
        · exact Or.inr (Or.inl (Or.inr ⟨h.symm, h2⟩))
        · exact Or.inr (Or.inr (by rw [h, h2]))
      · exact Or.inr (Or.inl (Or.inl h))

theorem stringData_inj {s t : String} (h : s.data = t.data) : s = t := by
  cases s
  cases t
  exact congrArg String.mk h

theorem entryBefore_total (a b : ℕ × LedgerRow) :
    entryBefore a b ∨ entryBefore b a := by
  unfold entryBefore
  rcases textLt_total b.2.timestamp.data a.2.timestamp.data with h | h | h
  · exact Or.inl (Or.inl h)
  · exact Or.inr (Or.inl h)
  · have hts : b.2.timestamp = a.2.timestamp := stringData_inj h
    rcases Nat.le_total b.1 a.1 with h2 | h2
    · exact Or.inl (Or.inr ⟨hts.symm, h2⟩)
    · exact Or.inr (Or.inr ⟨hts, h2⟩)

theorem entryBefore_trans {a b c : ℕ × LedgerRow}
    (hab : entryBefore a b) (hbc : entryBefore b c) : entryBefore a c := by
  unfold entryBefore at *
  rcases hab with h1 | ⟨he1, h1⟩
  · rcases hbc with h2 | ⟨he2, h2⟩
    · exact Or.inl (textLt_trans _ _ _ h2 h1)
    · exact Or.inl (he2 ▸ h1)
  · rcases hbc with h2 | ⟨he2, h2⟩
    · exact Or.inl (by rw [he1]; exact h2)
    · exact Or.inr ⟨he1.trans he2, le_trans h2 h1⟩

theorem mem_insertByTs {x z : ℕ × LedgerRow} :
    ∀ {l : List (ℕ × LedgerRow)}, z ∈ insertByTs x l → z = x ∨ z ∈ l := by
  intro l
  induction l with
  | nil =>
    intro h
    rw [insertByTs] at h
    exact Or.inl (by simpa using h)
  | cons y ys ih =>
    intro h
    rw [insertByTs] at h
    split_ifs at h
    · rcases List.mem_cons.mp h with rfl | h
      · exact Or.inl rfl
      · exact Or.inr h
    · rcases List.mem_cons.mp h with rfl | h
      · exact Or.inr (List.mem_cons_self _ _)
      · rcases ih h with h2 | h2
        · exact Or.inl h2
        · exact Or.inr (List.mem_cons_of_mem _ h2)

theorem pairwise_insertByTs (x : ℕ × LedgerRow) :
    ∀ (l : List (ℕ × LedgerRow)), l.Pairwise entryBefore →
      (insertByTs x l).Pairwise entryBefore := by
  intro l
  induction l with
  | nil => intro _; simp [insertByTs]
  | cons y ys ih =>
    intro hl
    obtain ⟨hy, hys⟩ := List.pairwise_cons.mp hl
    rw [insertByTs]
    split_ifs with hxy
    · refine List.Pairwise.cons ?_ hl
      intro z hz
      rcases List.mem_cons.mp hz with rfl | hz
      · exact hxy
      · exact entryBefore_trans hxy (hy z hz)
    · have hyx : entryBefore y x := (entryBefore_total x y).resolve_left hxy
      refine List.Pairwise.cons ?_ (ih hys)
      intro z hz
      rcases mem_insertByTs hz with rfl | hz
      · exact hyx
      · exact hy z hz

theorem pairwise_sortByTsDesc (l : List (ℕ × LedgerRow)) :
    (sortByTsDesc l).Pairwise entryBefore := by
  induction l with
  | nil => simp [sortByTsDesc]
  | cons x xs ih => exact pairwise_insertByTs x _ ih

theorem length_insertByTs (x : ℕ × LedgerRow) :
    ∀ (l : List (ℕ × LedgerRow)),
      (insertByTs x l).length = l.length + 1 := by
  intro l
  induction l with
  | nil => rfl
  | cons y ys ih =>
    rw [insertByTs]
    split_ifs
    · rfl
    · simp [ih]

theorem length_sortByTsDesc (l : List (ℕ × LedgerRow)) :
    (sortByTsDesc l).length = l.length := by
  induction l with
  | nil => rfl
  | cons x xs ih => simp [sortByTsDesc, length_insertByTs, ih]

/-- Claim C8: `read_entries` returns at most `limit` records, with the
raw `limit` clamped into the `[1, 500]` band (a non-numeric value falls
back to the default 100); the keyed result set is ordered by
`entryBefore` — newest timestamp first, equal timestamps broken by
descending rowid, i.e. insertion order with the most recently inserted
first — so the returned rows are ordered newest timestamp first; and
after inserting three records with timestamps `t1 < t2 < t3`,
`read_entries` with limit 2 returns exactly the `t3` and `t2` records,
in that order. -/
theorem c8_list_recent_clamped_and_ordered (ledger : List LedgerRow)
    (limitRaw : Option Int) :
    (readEntries ledger limitRaw).length ≤
      (clampInt limitRaw 1 500 100).toNat ∧
    1 ≤ clampInt limitRaw 1 500 100 ∧
    clampInt limitRaw 1 500 100 ≤ 500 ∧
    clampInt none 1 500 100 = 100 ∧
    ((sortByTsDesc ledger.enum).take
      (clampInt limitRaw 1 500 100).toNat).Pairwise entryBefore ∧
    (readEntries ledger limitRaw).Pairwise
      (fun r1 r2 => textLt r2.timestamp.data r1.timestamp.data ∨
        r1.timestamp = r2.timestamp) ∧
    readEntries [⟨"t1", "a", "d", "o", "c", none, 1, "accepted"⟩,
        ⟨"t2", "a", "d", "o", "c", none, 1, "accepted"⟩,
        ⟨"t3", "a", "d", "o", "c", none, 1, "accepted"⟩] (some 2) =
      [⟨"t3", "a", "d", "o", "c", none, 1, "accepted"⟩,
        ⟨"t2", "a", "d", "o", "c", none, 1, "accepted"⟩] := by
  have hpw : ((sortByTsDesc ledger.enum).take
      (clampInt limitRaw 1 500 100).toNat).Pairwise entryBefore :=
    (pairwise_sortByTsDesc ledger.enum).sublist (List.take_sublist _ _)
  refine ⟨?_, ?_, ?_, rfl, hpw, ?_, by decide⟩
  · unfold readEntries
    simp only [List.length_map, List.length_take, length_sortByTsDesc]
    exact min_le_left _ _
  · unfold clampInt
    cases limitRaw with
    | none => norm_num
    | some v => simp only []; omega
  · unfold clampInt
    cases limitRaw with
    | none => norm_num
    | some v => simp only []; omega
  · unfold readEntries
    simp only [List.pairwise_map]
    refine hpw.imp ?_
    intro a b hab
    rcases hab with h | ⟨h, _⟩
    · exact Or.inl h
    · exact Or.inr h

/-- Claim C9: registering a valid fresh username succeeds exactly once —
the first call returns ok with the fresh credential, the second call
hits the unique constraint and fails with Conflict (409) leaving the
store untouched, and after the failed second call the credential issued
by the first call still resolves to that username. -/
theorem c9_register_twice_conflict (st : ServerState)
    (u k1 k2 iso1 iso2 : String)
    (hvalid : usernameValid u = true)
    (htrim : pyStrip u = u)
    (hufresh : ∀ a ∈ st.agents, a.username ≠ u)
    (hkfresh : ∀ a ∈ st.agents, a.agentKey ≠ k1)
    (hk1 : k1 ≠ "") :
    (registerAgent st u k1 iso1).1 = .ok u k1 ∧
    (registerAgent (registerAgent st u k1 iso1).2 u k2 iso2).1 = .conflict ∧
    (registerAgent (registerAgent st u k1 iso1).2 u k2 iso2).2 =
      (registerAgent st u k1 iso1).2 ∧
    agentKeyToUsername
      (registerAgent (registerAgent st u k1 iso1).2 u k2 iso2).2.agents k1 =
      some u := by
  have hune : u ≠ "" := by
    intro he
    rw [he] at hvalid
    exact absurd hvalid (by decide)
  have hany1 : ¬(st.agents.any
      (fun a => a.username = u ∨ a.agentKey = k1) = true) := by
    rw [List.any_eq_true]
    rintro ⟨a, ha, hc⟩
    rcases of_decide_eq_true hc with hc | hc
    · exact hufresh a ha hc
    · exact hkfresh a ha hc
  have h1 : registerAgent st u k1 iso1 =
      (.ok u k1, { st with agents := st.agents ++ [⟨u, k1, iso1⟩] }) := by
    unfold registerAgent
    rw [htrim, if_neg hune, if_neg (by rw [hvalid]; exact fun hc => hc rfl),
      if_neg hany1]
  have hany2 : ({ st with agents := st.agents ++ [⟨u, k1, iso1⟩] } :
      ServerState).agents.any
      (fun a => a.username = u ∨ a.agentKey = k2) = true := by
    rw [List.any_eq_true]
    exact ⟨⟨u, k1, iso1⟩, by simp, by simp⟩
  have h2 : registerAgent { st with agents := st.agents ++ [⟨u, k1, iso1⟩] }
      u k2 iso2 =
      (.conflict, { st with agents := st.agents ++ [⟨u, k1, iso1⟩] }) := by
    unfold registerAgent
    rw [htrim, if_neg hune, if_neg (by rw [hvalid]; exact fun hc => hc rfl),
      if_pos hany2]
  rw [h1]
  simp only [h2]
  refine ⟨trivial, trivial, trivial, ?_⟩
  unfold agentKeyToUsername
  rw [if_neg hk1]
  have hfind : (st.agents.find? (fun a => a.agentKey = k1)) = none := by
    rw [List.find?_eq_none]
    intro a ha
    simpa using hkfresh a ha
  simp only [List.find?_append, hfind, Option.none_or]
  simp

/-- Witness for C9 on an empty store: registering `agent01` twice with
fresh keys succeeds once, conflicts once, and `KEYONE` still resolves. -/
theorem c9_register_twice_conflict_witness :
    (registerAgent ⟨[], [], [], []⟩ "agent01" "KEYONE" "i1").1 =
      .ok "agent01" "KEYONE" ∧
    (registerAgent (registerAgent ⟨[], [], [], []⟩ "agent01" "KEYONE"
      "i1").2 "agent01" "KEYTWO" "i2").1 = .conflict ∧
    agentKeyToUsername (registerAgent (registerAgent ⟨[], [], [], []⟩
      "agent01" "KEYONE" "i1").2 "agent01" "KEYTWO" "i2").2.agents
      "KEYONE" = some "agent01" := by
  have h := c9_register_twice_conflict ⟨[], [], [], []⟩ "agent01" "KEYONE"
    "KEYTWO" "i1" "i2" (by decide) (by decide) (by simp) (by simp)
    (by decide)
  exact ⟨h.1, h.2.1, h.2.2.2⟩

end AgentLedger
